import Mathlib

/-!
Shallow embedding of the dual-grid tilemap engine (src/tilemap.rs) and
verification of its specification.

Machine integers (`i32`, `i64`, `u64`) are modelled by `Int` (the claims under
scrutiny do not involve integer overflow).  Rust's fatal errors
(`std::process::exit(1)` after logging) are modelled by `Option.none`: a
function that may halt the process returns `Option`.  `raylib` textures are
modelled by the atlas crop data that produces them (the top-left pixel
coordinate of the cropped region, as an `Int × Int` pair), since a loaded
texture is fully determined by that rectangle and the atlas image.
`serde_yaml::Value` is modelled by the inductive type `Yaml` below.
-/

/-- Model of `serde_yaml::Value`: the YAML data tree consumed by the loaders. -/
inductive Yaml where
  | null
  | bool (b : Bool)
  | int (n : Int)
  | str (s : String)
  | seq (xs : List Yaml)
  | map (kvs : List (String × Yaml))

namespace Yaml

/-- Model of `serde_yaml`'s `Index<&str>` for `Value` (the `data["key"]`
syntax): looks the key up in a mapping, yielding `Null` when the key is absent
or the value is not a mapping. -/
def index (v : Yaml) (k : String) : Yaml :=
  match v with
  | .map kvs =>
    match kvs.find? (fun kv => kv.1 == k) with
    | some kv => kv.2
    | none => .null
  | _ => .null

/-- Model of `serde_yaml::Value::as_i64`: some iff the value is an integer. -/
def as_i64 : Yaml → Option Int
  | .int n => some n
  | _ => none

/-- Model of `serde_yaml::Value::as_u64`: some iff the value is a
non-negative integer. -/
def as_u64 : Yaml → Option Int
  | .int n => if 0 ≤ n then some n else none
  | _ => none

/-- Model of `serde_yaml::Value::as_bool`: some iff the value is a boolean
(YAML integers 0/1 are NOT booleans). -/
def as_bool : Yaml → Option Bool
  | .bool b => some b
  | _ => none

/-- Model of `serde_yaml::Value::as_sequence`. -/
def as_sequence : Yaml → Option (List Yaml)
  | .seq xs => some xs
  | _ => none

/-- Model of `serde_yaml::Value::as_mapping`. -/
def as_mapping : Yaml → Option (List (String × Yaml))
  | .map kvs => some kvs
  | _ => none

/-- Model of `Mapping::get(&Value::String(k))`: lookup by string key. -/
def mappingGet (kvs : List (String × Yaml)) (k : String) : Option Yaml :=
  (kvs.find? (fun kv => kv.1 == k)).map (fun kv => kv.2)

end Yaml

/-- `pub struct Chunk` from src/tilemap.rs: origin `(x, y)` in world cells,
declared dimensions `size_x`/`size_y`, and the row-major boolean occupancy
buffer `data` (outer index = y/row, inner index = x/column). -/
structure Chunk where
  x : Int
  y : Int
  size_x : Int
  size_y : Int
  data : List (List Bool)
deriving DecidableEq

namespace Chunk

/-- `Chunk::get`: false when a coordinate is out of the declared range,
otherwise `self.data[y][x]`.  The Rust indexing `data[y][x]` is modelled with
`getD` defaults; for a chunk whose buffer matches its declared dimensions the
in-range branch never reaches the defaults, exactly as the Rust indexing never
panics there. -/
def get (c : Chunk) (x y : Int) : Bool :=
  if x < 0 || x ≥ c.size_x || y < 0 || y ≥ c.size_y then
    false
  else
    (c.data.getD y.toNat []).getD x.toNat false

/-- `Chunk::set`: no-op when a coordinate is out of the declared range,
otherwise overwrites `self.data[y][x]`. -/
def set (c : Chunk) (x y : Int) (value : Bool) : Chunk :=
  if x < 0 || x ≥ c.size_x || y < 0 || y ≥ c.size_y then
    c
  else
    { c with data := c.data.set y.toNat ((c.data.getD y.toNat []).set x.toNat value) }

/-- The invariant the Rust code assumes of every chunk buffer: the outer
list has exactly `size_y` rows and every row exactly `size_x` cells. -/
def wf (c : Chunk) : Prop :=
  c.data.length = c.size_y.toNat ∧ ∀ row ∈ c.data, row.length = c.size_x.toNat

instance (c : Chunk) : Decidable c.wf := by
  unfold wf; infer_instance

end Chunk

/-- The 4-boolean neighbor pattern `[bool; 4]` of a visual cell; field `n0`
is index 0 (upper-left), `n1` index 1 (upper-right), `n2` index 2
(lower-right), `n3` index 3 (lower-left). -/
structure N4 where
  n0 : Bool
  n1 : Bool
  n2 : Bool
  n3 : Bool
deriving DecidableEq

/-- Writing `n[i] = b` into a `[bool; 4]`: `none` models the Rust
index-out-of-bounds panic for `i ≥ 4`. -/
def N4.setIdx (n : N4) (i : Nat) (b : Bool) : Option N4 :=
  match i with
  | 0 => some { n with n0 := b }
  | 1 => some { n with n1 := b }
  | 2 => some { n with n2 := b }
  | 3 => some { n with n3 := b }
  | _ => none

/-- `pub struct TileRule`: the neighbor pattern, the sprite texture (modelled
by the atlas crop top-left coordinate that produced it), and the tile pixel
size. -/
structure TileRule where
  neighbors : N4
  sprite : Int × Int
  size : Int
deriving DecidableEq

/-- `pub struct TileRules`: the ordered rule list. -/
structure TileRules where
  rules : List TileRule
deriving DecidableEq

namespace TileRules

/-- `TileRules::tile_by_rules`: first rule whose pattern equals the query
(`rules.iter().find(...)`); `none` models the fatal
"Neighbors value not found in the rules" exit. -/
def tile_by_rules (tr : TileRules) (neighbors : N4) : Option TileRule :=
  tr.rules.find? (fun rule => rule.neighbors == neighbors)

end TileRules

/-- `pub struct TileMap`: the rule table and the ordered chunk list. -/
structure TileMap where
  rules : TileRules
  chunks : List Chunk
deriving DecidableEq

/-- The containment test both `TileMap::get` and `TileMap::set` perform on
each chunk in turn:
`x >= chunk.x && x < chunk.x + chunk.size_x && y >= chunk.y && y < chunk.y + chunk.size_y`. -/
def chunkContains (c : Chunk) (x y : Int) : Bool :=
  decide (x ≥ c.x) && decide (x < c.x + c.size_x) &&
  decide (y ≥ c.y) && decide (y < c.y + c.size_y)

namespace TileMap

/-- The loop of `TileMap::get` over the chunk list: the first chunk whose
bounds contain the point answers via its local `get`; false when the loop
falls through. -/
def getChunks : List Chunk → Int → Int → Bool
  | [], _, _ => false
  | c :: cs, x, y =>
    if chunkContains c x y then c.get (x - c.x) (y - c.y) else getChunks cs x y

/-- `TileMap::get`: scan the chunks in order; the first chunk whose bounds
`[x, x+size_x) × [y, y+size_y)` contain the point answers via its local
`get`; false when no chunk covers the point. -/
def get (m : TileMap) (x y : Int) : Bool :=
  getChunks m.chunks x y

/-- The loop of `TileMap::set`: write through the first chunk whose bounds
contain the point, then stop; leave the rest untouched. -/
def setFirst : List Chunk → Int → Int → Bool → List Chunk
  | [], _, _, _ => []
  | c :: cs, x, y, v =>
    if chunkContains c x y then
      c.set (x - c.x) (y - c.y) v :: cs
    else
      c :: setFirst cs x y v

/-- `TileMap::set`: same containment scan as `get`; silently does nothing
when no chunk covers the point. -/
def set (m : TileMap) (x y : Int) (value : Bool) : TileMap :=
  { m with chunks := setFirst m.chunks x y value }

/-- `TileMap::add_chunk`: append a zero-initialized chunk. -/
def add_chunk (m : TileMap) (x y size_x size_y : Int) : TileMap :=
  { m with chunks := m.chunks ++
      [⟨x, y, size_x, size_y, List.replicate size_y.toNat (List.replicate size_x.toNat false)⟩] }

/-- Every chunk buffer of the map matches its declared dimensions. -/
def wf (m : TileMap) : Prop := ∀ c ∈ m.chunks, c.wf

instance (m : TileMap) : Decidable m.wf := by
  unfold wf; infer_instance

end TileMap

/-! ## Rule-table loading (`TileRules::new`)

The function reads the YAML file, then builds each rule in order.  File
open/read and image-decode failures are host-environment effects outside the
data model; the parsing of the already-read YAML document is modelled
faithfully, with `none` for every `std::process::exit(1)` branch. -/

/-- The loop over `rule["neighbors"]`: `let mut n = [false; 4]` followed by
`n[i] = neighbor.as_bool() or exit` for each entry with its index.  A non-bool
entry is a fatal error; an index past 3 is the Rust panic; both are `none`. -/
def parseNeighborsAux : List Yaml → Nat → N4 → Option N4
  | [], _, n => some n
  | v :: vs, i, n =>
    match v.as_bool with
    | none => none
    | some b =>
      match n.setIdx i b with
      | none => none
      | some n' => parseNeighborsAux vs (i + 1) n'

/-- Parsing `rule["neighbors"]`: must be a sequence, then the indexed loop. -/
def parseNeighbors (v : Yaml) : Option N4 :=
  match v.as_sequence with
  | none => none
  | some xs => parseNeighborsAux xs 0 ⟨false, false, false, false⟩

/-- Parsing `rule["sprite"]`: must be a mapping with integer entries at keys
"x" and "y"; yields the crop rectangle's top-left pixel coordinate. -/
def parseSprite (v : Yaml) : Option (Int × Int) :=
  match v.as_mapping with
  | none => none
  | some kvs =>
    match Yaml.mappingGet kvs "x" with
    | none => none
    | some xv =>
      match xv.as_i64 with
      | none => none
      | some x =>
        match Yaml.mappingGet kvs "y" with
        | none => none
        | some yv =>
          match yv.as_i64 with
          | none => none
          | some y => some (x, y)

/-- Building one `TileRule` from its YAML node: neighbors, then the sprite
rectangle `(x, y, size, size)`; the atlas is cropped to that rectangle and
uploaded as the rule's texture (modelled by the rectangle's top-left). -/
def parseRule (size : Int) (rule : Yaml) : Option TileRule :=
  match parseNeighbors (rule.index "neighbors") with
  | none => none
  | some n =>
    match parseSprite (rule.index "sprite") with
    | none => none
    | some s => some { neighbors := n, sprite := s, size := size }

/-- `TileRules::new`, from the parsed YAML document: read `size`, then map
`parseRule` over the `rules` sequence in order. -/
def TileRules.load (doc : Yaml) : Option TileRules :=
  match (doc.index "size").as_i64 with
  | none => none
  | some size =>
    match (doc.index "rules").as_sequence with
    | none => none
    | some rs => (rs.mapM (parseRule size)).map (fun rules => ⟨rules⟩)

/-! ## Chunk loading (`TileMap::load_chunk_from_yaml`) -/

/-- One cell of the chunk `data`: `value.as_u64()` (fatal when not a
non-negative integer), stored as `value == 1`. -/
def parseCell (v : Yaml) : Option Bool :=
  match v.as_u64 with
  | none => none
  | some n => some (n == 1)

/-- One row of the chunk `data`: must be a sequence of cells. -/
def parseRow (row : Yaml) : Option (List Bool) :=
  match row.as_sequence with
  | none => none
  | some xs => xs.mapM parseCell

/-- The chunk `data` field: must be a sequence of rows. -/
def parseChunkData (d : Yaml) : Option (List (List Bool)) :=
  match d.as_sequence with
  | none => none
  | some rows => rows.mapM parseRow

/-- `TileMap::load_chunk_from_yaml`, from the parsed YAML document: read
`x`, `y`, `size_x`, `size_y` and the parsed `data`, build the chunk with
exactly those fields, and append it to the chunk list.  The Rust code
performs no consistency check between `data` and `size_x`/`size_y`. -/
def TileMap.load_chunk_from_yaml (m : TileMap) (doc : Yaml) : Option TileMap :=
  match (doc.index "x").as_i64 with
  | none => none
  | some x =>
    match (doc.index "y").as_i64 with
    | none => none
    | some y =>
      match (doc.index "size_x").as_i64 with
      | none => none
      | some size_x =>
        match (doc.index "size_y").as_i64 with
        | none => none
        | some size_y =>
          match parseChunkData (doc.index "data") with
          | none => none
          | some d =>
            some { m with chunks := m.chunks ++ [⟨x, y, size_x, size_y, d⟩] }

/-! ## The draw pass (`TileMap::draw`) -/

/-- One `draw_texture_pro` invocation, recorded with every argument the Rust
call passes: the sprite texture (by its atlas crop origin), the source
rectangle, the destination rectangle, the origin vector, the rotation and the
tint.  The `f32` arithmetic of the destination rectangle involves only
integers (`size * 4 / 2` is exact since `size * 4` is even), so it is recorded
in `Int`. -/
structure DrawCmd where
  sprite : Int × Int
  srcX : Int
  srcY : Int
  srcW : Int
  srcH : Int
  destX : Int
  destY : Int
  destW : Int
  destH : Int
  originX : Int
  originY : Int
  rotation : Int
  tint : Nat × Nat × Nat × Nat
deriving DecidableEq

/-- The integers of the half-open interval `[lo, hi)` in increasing order:
the Rust iteration `for v in lo..hi`. -/
def intRange (lo hi : Int) : List Int :=
  (List.range (hi - lo).toNat).map (fun i => lo + Int.ofNat i)

/-- The visual cells the draw loop visits for one chunk, in loop order:
`y` from `-1` to `size_y - 1` outermost, `x` from `-1` to `size_x - 1`. -/
def chunkCells (c : Chunk) : List (Int × Int) :=
  (intRange (-1) c.size_y).flatMap (fun y =>
    (intRange (-1) c.size_x).map (fun x => (x, y)))

/-- The 4-boolean neighbor pattern sampled at visual cell `(x, y)` of chunk
`c`: index 0 chunk-local, indices 1-3 map-wide. -/
def cellNeighbors (m : TileMap) (c : Chunk) (x y : Int) : N4 :=
  ⟨c.get x y,
   m.get (x + 1 + c.x) (y + c.y),
   m.get (x + c.x) (y + 1 + c.y),
   m.get (x + 1 + c.x) (y + 1 + c.y)⟩

/-- The body of the draw loop at one visual cell: resolve the sampled pattern
(`none` models the fatal "rule not found" exit) and emit the
`draw_texture_pro` call with the Rust arguments. -/
def drawCell (m : TileMap) (c : Chunk) (x y : Int) : Option DrawCmd :=
  match m.rules.tile_by_rules (cellNeighbors m c x y) with
  | none => none
  | some r =>
    some { sprite := r.sprite
           srcX := 0, srcY := 0, srcW := r.size, srcH := r.size
           destX := (c.x + x) * r.size * 4 + r.size * 4 / 2
           destY := (c.y + y) * r.size * 4 + r.size * 4 / 2
           destW := r.size * 4
           destH := r.size * 4
           originX := 0, originY := 0
           rotation := 0
           tint := (255, 255, 255, 255) }

/-- The draw pass over one chunk: every visual cell in loop order. -/
def TileMap.drawChunk (m : TileMap) (c : Chunk) : Option (List DrawCmd) :=
  (chunkCells c).mapM (fun p => drawCell m c p.1 p.2)

/-- `TileMap::draw`: the chunks in order, each drawn cell by cell; the
emitted draw commands in emission order (`none` when any cell's pattern has
no rule, modelling the fatal exit). -/
def TileMap.draw (m : TileMap) : Option (List DrawCmd) :=
  (m.chunks.mapM (fun c => m.drawChunk c)).map (fun ls => ls.flatten)

/-- Two successive `draw` calls on the same map with no mutation in between:
the pair of command sequences the two calls emit. -/
def TileMap.drawTwice (m : TileMap) : Option (List DrawCmd) × Option (List DrawCmd) :=
  (m.draw, m.draw)

/-! ## Helper lemmas -/

theorem chunkContains_iff (c : Chunk) (x y : Int) :
    chunkContains c x y = true ↔
      c.x ≤ x ∧ x < c.x + c.size_x ∧ c.y ≤ y ∧ y < c.y + c.size_y := by
  simp [chunkContains, and_assoc]

theorem Chunk.x_set (c : Chunk) (x y : Int) (v : Bool) : (c.set x y v).x = c.x := by
  unfold Chunk.set; split <;> rfl

theorem Chunk.y_set (c : Chunk) (x y : Int) (v : Bool) : (c.set x y v).y = c.y := by
  unfold Chunk.set; split <;> rfl

theorem Chunk.size_x_set (c : Chunk) (x y : Int) (v : Bool) :
    (c.set x y v).size_x = c.size_x := by
  unfold Chunk.set; split <;> rfl

theorem Chunk.size_y_set (c : Chunk) (x y : Int) (v : Bool) :
    (c.set x y v).size_y = c.size_y := by
  unfold Chunk.set; split <;> rfl

theorem chunkContains_set (c : Chunk) (a b x y : Int) (v : Bool) :
    chunkContains (c.set a b v) x y = chunkContains c x y := by
  simp [chunkContains, Chunk.x_set, Chunk.y_set, Chunk.size_x_set, Chunk.size_y_set]

/-- Writing in range then reading back the same in-range local cell yields the
written value, on a chunk whose buffer matches its declared dimensions. -/
theorem Chunk.get_set_self (c : Chunk) (x y : Int) (v : Bool) (hwf : c.wf)
    (hx0 : 0 ≤ x) (hx : x < c.size_x) (hy0 : 0 ≤ y) (hy : y < c.size_y) :
    (c.set x y v).get x y = v := by
  obtain ⟨hlen, hrows⟩ := hwf
  have hyn : y.toNat < c.data.length := by omega
  have hrow : (c.data.getD y.toNat []) ∈ c.data := by
    rw [List.getD_eq_getElem _ _ hyn]
    exact List.getElem_mem hyn
  have hxn : x.toNat < (c.data.getD y.toNat []).length := by
    have := hrows _ hrow
    omega
  have hset : c.set x y v =
      { c with data := c.data.set y.toNat ((c.data.getD y.toNat []).set x.toNat v) } := by
    unfold Chunk.set
    rw [if_neg (by simp; omega)]
  rw [hset]
  unfold Chunk.get
  rw [if_neg (by simp; omega)]
  show ((c.data.set y.toNat ((c.data.getD y.toNat []).set x.toNat v)).getD y.toNat []).getD
      x.toNat false = v
  rw [List.getD_eq_getElem?_getD, List.getD_eq_getElem?_getD,
    List.getElem?_set_self hyn, Option.getD_some, List.getElem?_set_self hxn, Option.getD_some]

/-- Writing one local cell leaves every other local cell's read unchanged
(wherever the write lands, in range or not). -/
theorem Chunk.get_set_ne (c : Chunk) (x y x' y' : Int) (v : Bool)
    (hne : ¬(x' = x ∧ y' = y)) :
    (c.set x y v).get x' y' = c.get x' y' := by
  by_cases hin : x < 0 || x ≥ c.size_x || y < 0 || y ≥ c.size_y
  · unfold Chunk.set
    rw [if_pos hin]
  · unfold Chunk.set
    rw [if_neg hin]
    simp only [Bool.or_eq_true, decide_eq_true_eq, not_or, not_lt, not_le] at hin
    unfold Chunk.get
    by_cases hin' : x' < 0 || x' ≥ c.size_x || y' < 0 || y' ≥ c.size_y
    · rw [if_pos (by simpa using hin'), if_pos hin']
    · rw [if_neg (by simpa using hin'), if_neg hin']
      simp only [Bool.or_eq_true, decide_eq_true_eq, not_or, not_lt, not_le] at hin'
      by_cases hyy : y'.toNat = y.toNat
      · have hy' : y' = y := by omega
        have hx' : x'.toNat ≠ x.toNat := by
          subst hy'
          have : x' ≠ x := by tauto
          omega
        by_cases hylen : y.toNat < c.data.length
        · simp only [List.getD_eq_getElem?_getD]
          rw [hyy, List.getElem?_set_self (by simpa using hylen)]
          simp only [Option.getD_some]
          rw [List.getElem?_set_ne (by omega)]
        · rw [List.set_eq_of_length_le (by omega)]
      · simp only [List.getD_eq_getElem?_getD]
        rw [List.getElem?_set_ne (by omega)]

/-- A set aimed at a point no chunk of the list contains leaves the list
unchanged. -/
theorem setFirst_of_not_contains (cs : List Chunk) (x y : Int) (v : Bool)
    (h : ∀ c ∈ cs, chunkContains c x y = false) :
    TileMap.setFirst cs x y v = cs := by
  induction cs with
  | nil => rfl
  | cons c cs ih =>
    unfold TileMap.setFirst
    rw [if_neg (by simp [h c (by simp)])]
    rw [ih (fun c' hc' => h c' (by simp [hc']))]

/-- The set writes through exactly the first chunk whose bounds contain the
point, leaving all chunks before and after it untouched. -/
theorem setFirst_append (l1 : List Chunk) (c : Chunk) (l2 : List Chunk)
    (x y : Int) (v : Bool)
    (h1 : ∀ c' ∈ l1, chunkContains c' x y = false)
    (hc : chunkContains c x y = true) :
    TileMap.setFirst (l1 ++ c :: l2) x y v =
      l1 ++ c.set (x - c.x) (y - c.y) v :: l2 := by
  induction l1 with
  | nil =>
    simp only [List.nil_append]
    unfold TileMap.setFirst
    rw [if_pos hc]
  | cons c1 l1 ih =>
    simp only [List.cons_append]
    unfold TileMap.setFirst
    rw [if_neg (by simp [h1 c1 (by simp)])]
    rw [ih (fun c' hc' => h1 c' (by simp [hc']))]

/-- Membership in the Rust iteration `for v in lo..hi` over `Int`. -/
theorem mem_intRange (lo hi x : Int) : x ∈ intRange lo hi ↔ lo ≤ x ∧ x < hi := by
  rw [intRange]
  constructor
  · intro hx
    rw [List.mem_map] at hx
    obtain ⟨i, hi2, rfl⟩ := hx
    rw [List.mem_range] at hi2
    simp only [Int.ofNat_eq_coe]
    omega
  · rintro ⟨h1, h2⟩
    rw [List.mem_map]
    refine ⟨(x - lo).toNat, ?_, ?_⟩
    · rw [List.mem_range]; omega
    · simp only [Int.ofNat_eq_coe]; omega

/-- A point no chunk of the list contains reads as false: the `get` loop
falls through. -/
theorem getChunks_of_not_contains (cs : List Chunk) (x y : Int)
    (h : ∀ c ∈ cs, chunkContains c x y = false) :
    TileMap.getChunks cs x y = false := by
  induction cs with
  | nil => rfl
  | cons c cs ih =>
    unfold TileMap.getChunks
    rw [if_neg (by simp [h c (by simp)])]
    exact ih (fun c' hc' => h c' (by simp [hc']))

/-- Writing a covered point through the chunk list and reading it back
returns the written value (the same first-containing chunk answers both). -/
theorem getChunks_setFirst_self (cs : List Chunk) (x y : Int) (v : Bool)
    (hwf : ∀ c ∈ cs, c.wf) (hcov : ∃ c ∈ cs, chunkContains c x y = true) :
    TileMap.getChunks (TileMap.setFirst cs x y v) x y = v := by
  induction cs with
  | nil => simp at hcov
  | cons c cs ih =>
    by_cases hc : chunkContains c x y = true
    · unfold TileMap.setFirst
      rw [if_pos hc]
      unfold TileMap.getChunks
      rw [if_pos (by rw [chunkContains_set]; exact hc)]
      rw [Chunk.x_set, Chunk.y_set]
      have hb := (chunkContains_iff c x y).mp hc
      exact Chunk.get_set_self c _ _ v (hwf c (by simp))
        (by omega) (by omega) (by omega) (by omega)
    · unfold TileMap.setFirst
      rw [if_neg hc]
      unfold TileMap.getChunks
      rw [if_neg hc]
      refine ih (fun c' hc' => hwf c' (by simp [hc'])) ?_
      obtain ⟨c0, hc0, hcc⟩ := hcov
      rcases List.mem_cons.mp hc0 with rfl | hmem
      · exact absurd hcc hc
      · exact ⟨c0, hmem, hcc⟩

/-- Writing one world cell leaves the read of every other world cell
unchanged, whatever the chunk layout. -/
theorem getChunks_setFirst_ne (cs : List Chunk) (x y x' y' : Int) (v : Bool)
    (hne : ¬(x' = x ∧ y' = y)) :
    TileMap.getChunks (TileMap.setFirst cs x y v) x' y' =
      TileMap.getChunks cs x' y' := by
  induction cs with
  | nil => rfl
  | cons c cs ih =>
    by_cases hc : chunkContains c x y = true
    · unfold TileMap.setFirst
      rw [if_pos hc]
      unfold TileMap.getChunks
      rw [chunkContains_set]
      by_cases hc' : chunkContains c x' y' = true
      · rw [if_pos hc', if_pos hc']
        rw [Chunk.x_set, Chunk.y_set]
        refine Chunk.get_set_ne c _ _ _ _ v ?_
        intro ⟨hx1, hy1⟩
        exact hne ⟨by omega, by omega⟩
      · rw [if_neg hc', if_neg hc']
    · unfold TileMap.setFirst
      rw [if_neg hc]
      unfold TileMap.getChunks
      by_cases hc' : chunkContains c x' y' = true
      · rw [if_pos hc', if_pos hc']
      · rw [if_neg hc', if_neg hc']
        exact ih

/-- A non-negative integer cell parses to its occupancy bit `value == 1`. -/
theorem parseCell_int_nonneg (n : Int) (h : 0 ≤ n) :
    parseCell (Yaml.int n) = some (n == 1) := by
  simp [parseCell, Yaml.as_u64, h]

/-- A row of non-negative integers parses cell by cell. -/
theorem parseRow_ints (r : List Int) (h : ∀ n ∈ r, 0 ≤ n) :
    parseRow (Yaml.seq (r.map Yaml.int)) = some (r.map (fun n => n == 1)) := by
  show (r.map Yaml.int).mapM parseCell = some (r.map (fun n => n == 1))
  induction r with
  | nil => rfl
  | cons a r ih =>
    rw [List.map_cons, List.mapM_cons, parseCell_int_nonneg a (h a (by simp)),
      ih (fun n hn => h n (by simp [hn]))]
    rfl

/-- A `data` block of non-negative-integer rows parses row by row. -/
theorem parseChunkData_ints (rows : List (List Int)) (h : ∀ r ∈ rows, ∀ n ∈ r, 0 ≤ n) :
    parseChunkData (Yaml.seq (rows.map (fun r => Yaml.seq (r.map Yaml.int)))) =
      some (rows.map (fun r => r.map (fun n => n == 1))) := by
  show (rows.map (fun r => Yaml.seq (r.map Yaml.int))).mapM parseRow =
    some (rows.map (fun r => r.map (fun n => n == 1)))
  induction rows with
  | nil => rfl
  | cons r rows ih =>
    rw [List.map_cons, List.mapM_cons, parseRow_ints r (h r (by simp)),
      ih (fun r' hr' => h r' (by simp [hr']))]
    rfl

/-- A well-formed chunk description document: world origin `(x, y)`,
declared sizes, and `data` given as rows of integers. -/
def mkChunkDesc (x y sx sy : Int) (rows : List (List Int)) : Yaml :=
  Yaml.map [("x", Yaml.int x), ("y", Yaml.int y), ("size_x", Yaml.int sx),
    ("size_y", Yaml.int sy),
    ("data", Yaml.seq (rows.map (fun r => Yaml.seq (r.map Yaml.int))))]

/-- A sample map for concrete witnesses: an empty rule table and one 2×2
chunk at the origin, all cells empty. -/
def sampleMap : TileMap := ⟨⟨[]⟩, [⟨0, 0, 2, 2, [[false, false], [false, false]]⟩]⟩

/-- A sample rule table with two rules sharing one pattern. -/
def sampleRules : TileRules :=
  ⟨[⟨⟨true, false, false, false⟩, (0, 0), 8⟩,
    ⟨⟨true, false, false, false⟩, (8, 0), 8⟩]⟩

/-! ## Claim theorems -/

/-- C1: for every tile map and every chunk it owns, the draw pass visits
exactly the visual cells `(x, y)` with `x ∈ [-1, size_x)` and
`y ∈ [-1, size_y)`; for each visited cell it builds the 4-boolean neighbor
pattern from the chunk-local `get (x, y)` at index 0 and the map-wide gets at
`(x+1+cx, y+cy)`, `(x+cx, y+1+cy)`, `(x+1+cx, y+1+cy)` at indices 1-3,
resolves it against the rule table, and emits a draw whose destination
top-left is `((cx+x)·S·4 + S·4/2, (cy+y)·S·4 + S·4/2)`, destination size
`S·4 × S·4`, rotation zero and full-opacity white tint, where `S` is the
resolved rule's tile size. -/
theorem draw_visits_cells_and_emits (m : TileMap) (c : Chunk) :
    (∀ x y : Int, (x, y) ∈ chunkCells c ↔
      (-1 ≤ x ∧ x < c.size_x ∧ -1 ≤ y ∧ y < c.size_y)) ∧
    m.drawChunk c = (chunkCells c).mapM (fun p => drawCell m c p.1 p.2) ∧
    m.draw = (m.chunks.mapM (fun ch => m.drawChunk ch)).map (fun ls => ls.flatten) ∧
    (∀ x y : Int, drawCell m c x y =
      (m.rules.tile_by_rules
        ⟨c.get x y, m.get (x + 1 + c.x) (y + c.y), m.get (x + c.x) (y + 1 + c.y),
         m.get (x + 1 + c.x) (y + 1 + c.y)⟩).map (fun r =>
        { sprite := r.sprite, srcX := 0, srcY := 0, srcW := r.size, srcH := r.size
          destX := (c.x + x) * r.size * 4 + r.size * 4 / 2
          destY := (c.y + y) * r.size * 4 + r.size * 4 / 2
          destW := r.size * 4, destH := r.size * 4
          originX := 0, originY := 0, rotation := 0
          tint := (255, 255, 255, 255) })) := by
  refine ⟨?_, rfl, rfl, ?_⟩
  · intro x y
    rw [chunkCells, List.mem_flatMap]
    constructor
    · rintro ⟨y0, hy0, hx0⟩
      rw [List.mem_map] at hx0
      obtain ⟨x0, hx0m, heq⟩ := hx0
      have hx1 : x0 = x := congrArg Prod.fst heq
      have hy1 : y0 = y := congrArg Prod.snd heq
      subst hx1; subst hy1
      have h1 := (mem_intRange _ _ _).mp hy0
      have h2 := (mem_intRange _ _ _).mp hx0m
      exact ⟨h2.1, h2.2, h1.1, h1.2⟩
    · rintro ⟨hx1, hx2, hy1, hy2⟩
      refine ⟨y, (mem_intRange _ _ _).mpr ⟨hy1, hy2⟩, ?_⟩
      rw [List.mem_map]
      exact ⟨x, (mem_intRange _ _ _).mpr ⟨hx1, hx2⟩, rfl⟩
  · intro x y
    show drawCell m c x y =
      (m.rules.tile_by_rules (cellNeighbors m c x y)).map _
    cases h : m.rules.tile_by_rules (cellNeighbors m c x y) <;>
      simp [drawCell, h]

/-- C1 witness: on the sample map's 2×2 chunk, cell `(0, -1)` is visited
(it satisfies the half-open bounds), via the theorem at that concrete map,
chunk and cell. -/
theorem draw_visits_cells_and_emits_witness :
    (0, -1) ∈ chunkCells ⟨0, 0, 2, 2, [[false, false], [false, false]]⟩ :=
  ((draw_visits_cells_and_emits sampleMap
      ⟨0, 0, 2, 2, [[false, false], [false, false]]⟩).1 0 (-1)).mpr
    (by refine ⟨by norm_num, by norm_num, by norm_num, by norm_num⟩)

/-- C2 counterexample: a chunk description declaring `size_x = 2`,
`size_y = 2` whose `data` has a single row of a single cell is NOT rejected:
`load_chunk_from_yaml` succeeds, contradicting the claim that inconsistent
row/column counts fail.  The conjuncts exhibit the mismatch (1 row ≠ declared
2; row length 1 ≠ declared 2) and the successful load. -/
theorem load_chunk_mismatch_not_rejected :
    ((mkChunkDesc 0 0 2 2 [[1]]).index "size_y").as_i64 = some 2 ∧
    ((mkChunkDesc 0 0 2 2 [[1]]).index "size_x").as_i64 = some 2 ∧
    (parseChunkData ((mkChunkDesc 0 0 2 2 [[1]]).index "data")).map
      (fun rows => rows.map List.length) = some [1] ∧
    (sampleMap.load_chunk_from_yaml (mkChunkDesc 0 0 2 2 [[1]])).isSome = true := by
  refine ⟨rfl, rfl, rfl, rfl⟩

/-- C2 amended: the load-chunk operation performs no consistency check
between `data` and the declared `size_x`/`size_y`.  Any description whose
fields parse (integer origin and sizes, `data` a sequence of rows of
non-negative integers) is accepted, and the constructed chunk carries the
declared sizes together with the `data` exactly as given — neither truncated,
padded, nor rejected, whatever its dimensions. -/
theorem load_chunk_accepts_any_data_dims (m : TileMap) (x y sx sy : Int)
    (rows : List (List Int)) (h : ∀ r ∈ rows, ∀ n ∈ r, 0 ≤ n) :
    m.load_chunk_from_yaml (mkChunkDesc x y sx sy rows) =
      some { m with chunks := m.chunks ++
        [⟨x, y, sx, sy, rows.map (fun r => r.map (fun n => n == 1))⟩] } := by
  have hload : m.load_chunk_from_yaml (mkChunkDesc x y sx sy rows) =
      match parseChunkData (Yaml.seq (rows.map (fun r => Yaml.seq (r.map Yaml.int)))) with
      | none => none
      | some d => some { m with chunks := m.chunks ++ [Chunk.mk x y sx sy d] } := rfl
  rw [hload, parseChunkData_ints rows h]

/-- C2 amended witness: the amended theorem applied to the sample map and the
mismatched description of the counterexample (declared 2×2, data a single
row `[1]`): the load succeeds and stores the single row as given. -/
theorem load_chunk_accepts_any_data_dims_witness :
    sampleMap.load_chunk_from_yaml (mkChunkDesc 0 0 2 2 [[1]]) =
      some { sampleMap with chunks := sampleMap.chunks ++ [⟨0, 0, 2, 2, [[true]]⟩] } :=
  load_chunk_accepts_any_data_dims sampleMap 0 0 2 2 [[1]]
    (by intro r hr n hn; simp at hr; subst hr; simp at hn; omega)

/-- C3: on a map whose chunk buffers match their declared dimensions, for
every world coordinate covered by some chunk and every boolean `v`, the
map-level `set (x, y, v)` followed by the map-level `get (x, y)` returns
`v`. -/
theorem tilemap_set_then_get (m : TileMap) (x y : Int) (v : Bool)
    (hwf : m.wf) (hcov : ∃ c ∈ m.chunks, chunkContains c x y = true) :
    (m.set x y v).get x y = v :=
  getChunks_setFirst_self m.chunks x y v hwf hcov

/-- C3 witness: the theorem at the sample map, coordinate `(1, 1)` and value
`true`. -/
theorem tilemap_set_then_get_witness :
    (sampleMap.set 1 1 true).get 1 1 = true :=
  tilemap_set_then_get sampleMap 1 1 true (by decide) (by decide)

/-- C4: for every world coordinate lying outside the bounds of every owned
chunk, the map-level `get` returns false, the map-level `set` leaves the map
unchanged, and a `get` after the `set` still returns false. -/
theorem tilemap_get_set_outside (m : TileMap) (x y : Int) (v : Bool)
    (h : ∀ c ∈ m.chunks, chunkContains c x y = false) :
    m.get x y = false ∧ m.set x y v = m ∧ (m.set x y v).get x y = false := by
  have h1 : m.get x y = false := getChunks_of_not_contains m.chunks x y h
  have h2 : m.set x y v = m := by
    show ({ m with chunks := TileMap.setFirst m.chunks x y v } : TileMap) = m
    rw [setFirst_of_not_contains m.chunks x y v h]
  exact ⟨h1, h2, by rw [h2]; exact h1⟩

/-- C4 witness: the theorem at the sample map and the uncovered coordinate
`(5, 5)`. -/
theorem tilemap_get_set_outside_witness :
    sampleMap.get 5 5 = false ∧ sampleMap.set 5 5 true = sampleMap ∧
      (sampleMap.set 5 5 true).get 5 5 = false :=
  tilemap_get_set_outside sampleMap 5 5 true (by decide)

/-- C5: resolving a 4-boolean pattern against the rule table returns the
first stored rule whose pattern equals it — any returned rule matches the
query and is preceded only by non-matching rules — succeeds whenever some
stored rule matches, and fails (the fatal "rule not found" exit, `none`)
when no stored pattern equals the query; it never returns a rule whose
pattern differs. -/
theorem tile_by_rules_first_match (tr : TileRules) (p : N4) :
    (∀ r : TileRule, tr.tile_by_rules p = some r →
      r.neighbors = p ∧
        ∃ l1 l2, tr.rules = l1 ++ r :: l2 ∧ ∀ r2 ∈ l1, r2.neighbors ≠ p) ∧
    ((∃ r ∈ tr.rules, r.neighbors = p) → (tr.tile_by_rules p).isSome = true) ∧
    ((∀ r ∈ tr.rules, r.neighbors ≠ p) → tr.tile_by_rules p = none) := by
  refine ⟨?_, ?_, ?_⟩
  · intro r hr
    rw [TileRules.tile_by_rules, List.find?_eq_some] at hr
    obtain ⟨hbeq, l1, l2, hsplit, hprev⟩ := hr
    refine ⟨by simpa using hbeq, l1, l2, hsplit, ?_⟩
    intro r2 hr2
    have := hprev r2 hr2
    simpa using this
  · intro ⟨r, hmem, hp⟩
    rw [TileRules.tile_by_rules, List.find?_isSome]
    exact ⟨r, hmem, by simpa using hp⟩
  · intro h
    rw [TileRules.tile_by_rules, List.find?_eq_none]
    intro r hmem
    simpa using h r hmem

/-- C5 witness: the theorem at the sample table (two rules sharing one
pattern): an absent pattern resolves to `none`, a present one resolves
successfully. -/
theorem tile_by_rules_first_match_witness :
    sampleRules.tile_by_rules ⟨false, true, false, false⟩ = none ∧
    (sampleRules.tile_by_rules ⟨true, false, false, false⟩).isSome = true :=
  ⟨(tile_by_rules_first_match sampleRules ⟨false, true, false, false⟩).2.2 (by decide),
   (tile_by_rules_first_match sampleRules ⟨true, false, false, false⟩).2.1 (by decide)⟩

/-- C6: on a chunk whose buffer matches its declared dimensions, every local
coordinate with `x < 0`, `x ≥ size_x`, `y < 0` or `y ≥ size_y` reads as
false and writes as a no-op: both operations are total and never reach the
buffer. -/
theorem chunk_out_of_range_total (c : Chunk) (x y : Int) (v : Bool)
    (hwf : c.wf)
    (hoob : x < 0 ∨ x ≥ c.size_x ∨ y < 0 ∨ y ≥ c.size_y) :
    c.get x y = false ∧ c.set x y v = c := by
  constructor
  · unfold Chunk.get
    rw [if_pos (by simp only [Bool.or_eq_true, decide_eq_true_eq]; omega)]
  · unfold Chunk.set
    rw [if_pos (by simp only [Bool.or_eq_true, decide_eq_true_eq]; omega)]

/-- C6 witness: the theorem at the sample 2×2 chunk and the out-of-range
local coordinate `(-1, 0)`. -/
theorem chunk_out_of_range_total_witness :
    (Chunk.mk 0 0 2 2 [[false, false], [false, false]]).get (-1) 0 = false ∧
    (Chunk.mk 0 0 2 2 [[false, false], [false, false]]).set (-1) 0 true =
      Chunk.mk 0 0 2 2 [[false, false], [false, false]] :=
  chunk_out_of_range_total (Chunk.mk 0 0 2 2 [[false, false], [false, false]])
    (-1) 0 true (by decide) (by left; norm_num)

/-- C7: two successive draw calls with no mutation in between emit identical
command sequences (same sprites, rectangles, rotation and tint in the same
order): `draw` reads the map without modifying it, so both calls observe the
same state. -/
theorem tilemap_draw_idempotent (m : TileMap) :
    m.drawTwice.1 = m.drawTwice.2 := rfl

/-- C8: on a map whose chunk buffers match their declared dimensions, the
map-level `set (x, y, v)` changes at most the single cell `(x, y)` in the
first chunk whose bounds contain it: every other world coordinate reads the
same value after the set as before; when no chunk contains the point the map
is unchanged entirely; and when the chunk list splits as `l1 ++ c :: l2`
with `c` the first containing chunk, only `c` is replaced (by its one-cell
update) while `l1` and `l2` are untouched. -/
theorem tilemap_set_frame (m : TileMap) (x y : Int) (v : Bool) (hwf : m.wf) :
    (∀ a b : Int, ¬(a = x ∧ b = y) → (m.set x y v).get a b = m.get a b) ∧
    ((∀ c ∈ m.chunks, chunkContains c x y = false) → m.set x y v = m) ∧
    (∀ l1 c l2, m.chunks = l1 ++ c :: l2 →
      (∀ c2 ∈ l1, chunkContains c2 x y = false) →
      chunkContains c x y = true →
      (m.set x y v).chunks = l1 ++ c.set (x - c.x) (y - c.y) v :: l2) := by
  refine ⟨?_, ?_, ?_⟩
  · intro a b hne
    exact getChunks_setFirst_ne m.chunks x y a b v hne
  · intro h
    show ({ m with chunks := TileMap.setFirst m.chunks x y v } : TileMap) = m
    rw [setFirst_of_not_contains m.chunks x y v h]
  · intro l1 c l2 hsplit h1 hc
    show TileMap.setFirst m.chunks x y v = _
    rw [hsplit, setFirst_append l1 c l2 x y v h1 hc]

/-- C8 witness: the theorem at the sample map writing `(1, 1)`; the read at
the distinct cell `(0, 0)` is unchanged, and the chunk list decomposes with
only the first (containing) chunk replaced. -/
theorem tilemap_set_frame_witness :
    (sampleMap.set 1 1 true).get 0 0 = sampleMap.get 0 0 ∧
    (sampleMap.set 1 1 true).chunks =
      [] ++ (Chunk.mk 0 0 2 2 [[false, false], [false, false]]).set 1 1 true :: [] :=
  ⟨(tilemap_set_frame sampleMap 1 1 true (by decide)).1 0 0 (by simp),
   (tilemap_set_frame sampleMap 1 1 true (by decide)).2.2
     [] (Chunk.mk 0 0 2 2 [[false, false], [false, false]]) [] rfl
     (by intro c2 hc2; simp at hc2) (by decide)⟩

/-- C9: a cell of a chunk description's `data` is stored as occupied exactly
when its value is the non-negative integer 1; every other non-negative
integer is silently stored as empty; a negative integer or any non-integer
value (boolean, string, null, sequence, mapping) makes the load fail. -/
theorem parseCell_one_means_occupied :
    (∀ n : Int, 0 ≤ n → parseCell (Yaml.int n) = some (decide (n = 1))) ∧
    parseCell (Yaml.int 2) = some false ∧
    (∀ n : Int, n < 0 → parseCell (Yaml.int n) = none) ∧
    (∀ b : Bool, parseCell (Yaml.bool b) = none) ∧
    (∀ s : String, parseCell (Yaml.str s) = none) ∧
    parseCell Yaml.null = none ∧
    (∀ xs : List Yaml, parseCell (Yaml.seq xs) = none) ∧
    (∀ kvs : List (String × Yaml), parseCell (Yaml.map kvs) = none) := by
  refine ⟨?_, rfl, ?_, fun b => rfl, fun s => rfl, rfl, fun xs => rfl, fun kvs => rfl⟩
  · intro n h
    rw [parseCell_int_nonneg n h]
    congr 1
  · intro n h
    show (match (if 0 ≤ n then some n else none : Option Int) with
      | none => none
      | some n2 => some (n2 == 1)) = none
    rw [if_neg (by omega)]

/-- C9 witness: the theorem applied at the concrete values 1 (stored
occupied), 0 (stored empty) and -1 (load fails). -/
theorem parseCell_one_means_occupied_witness :
    parseCell (Yaml.int 1) = some true ∧ parseCell (Yaml.int 0) = some false ∧
      parseCell (Yaml.int (-1)) = none :=
  ⟨by simpa using parseCell_one_means_occupied.1 1 (by norm_num),
   by simpa using parseCell_one_means_occupied.1 0 (by norm_num),
   parseCell_one_means_occupied.2.2.1 (-1) (by norm_num)⟩

/-- C10: a rule whose `neighbors` list holds fewer than 4 booleans is
accepted without error during rule loading; the unwritten trailing positions
of the 4-boolean pattern keep their `[false; 4]` initialization. -/
theorem parseRule_accepts_short_neighbors (size sx sy : Int) (bs : List Bool)
    (h : bs.length < 4) :
    parseRule size (Yaml.map [("neighbors", Yaml.seq (bs.map Yaml.bool)),
        ("sprite", Yaml.map [("x", Yaml.int sx), ("y", Yaml.int sy)])]) =
      some ⟨⟨bs.getD 0 false, bs.getD 1 false, bs.getD 2 false, bs.getD 3 false⟩,
        (sx, sy), size⟩ := by
  match bs, h with
  | [], _ => rfl
  | [a], _ => rfl
  | [a, b], _ => rfl
  | [a, b, c], _ => rfl

/-- C10 witness: the theorem at a concrete one-element neighbors list: the
rule loads with the three missing positions false. -/
theorem parseRule_accepts_short_neighbors_witness :
    parseRule 16 (Yaml.map [("neighbors", Yaml.seq [Yaml.bool true]),
        ("sprite", Yaml.map [("x", Yaml.int 0), ("y", Yaml.int 0)])]) =
      some ⟨⟨true, false, false, false⟩, (0, 0), 16⟩ :=
  parseRule_accepts_short_neighbors 16 0 0 [true] (by norm_num)
